import Mathlib

/-!
Verification of the psidata repository: a shallow embedding of the
discovery-load-merge pipeline (`dataset.py`), the structured query loader
(`load_raw_jmes`), the filename metadata parser (`parse_psi_filename`), and
the archive utilities (`postprocess.py`: `md5sum`, `validate`).

Python dynamic values are modelled by `PyVal`; pandas DataFrames by an
assoc-list of named columns plus a row index; dict/Series payloads by an
assoc-list of string-keyed entries.  Fallible Python code returns `Except`.
-/

namespace Psidata

/-! ## Generic assoc-list helpers (Python dict semantics) -/

/-- First-match lookup in an association list (dict lookup; keys are unique in
real dicts, first match mirrors that). -/
def assocLookup {κ α : Type} [DecidableEq κ] : List (κ × α) → κ → Option α
  | [], _ => Option.none
  | (k, v) :: rest, key => if k = key then some v else assocLookup rest key

/-- `d[k] = v` on a Python dict: replace in place if the key exists, else
append at the end (insertion order preserved). -/
def dictSet {κ α : Type} [DecidableEq κ] : List (κ × α) → κ → α → List (κ × α)
  | [], k, v => [(k, v)]
  | (k0, v0) :: rest, k, v =>
    if k0 = k then (k, v) :: rest else (k0, v0) :: dictSet rest k v

/-- `del d[k]` on a Python dict. -/
def dictDel {κ α : Type} [DecidableEq κ] : List (κ × α) → κ → List (κ × α)
  | [], _ => []
  | (k0, v0) :: rest, k =>
    if k0 = k then rest else (k0, v0) :: dictDel rest k

/-! ## Character-list helpers (Python `in` on strings is substring test) -/

/-- `needle` is a prefix of `hay` (character lists). -/
def charsPre : List Char → List Char → Bool
  | [], _ => true
  | _ :: _, [] => false
  | a :: as, b :: bs => a = b && charsPre as bs

/-- `needle` occurs somewhere inside `hay` (character lists), i.e. the Python
test `needle in hay` on strings. -/
def charsSub (needle : List Char) : List Char → Bool
  | [] => needle.isEmpty
  | b :: bs => charsPre needle (b :: bs) || charsSub needle bs

/-- Python `needle in hay` for strings. -/
def strContains (hay needle : String) : Bool :=
  charsSub needle.toList hay.toList

/-- Characters of `str(PosixPath(...))` for a path given as its list of
segments: segments joined by '/'. -/
def pathChars : List String → List Char
  | [] => []
  | [s] => s.toList
  | s :: rest => s.toList ++ '/' :: pathChars rest

/-- `str(filename)` for a path represented by its segments. -/
def pathStr (p : List String) : String := String.mk (pathChars p)

/-- `Path.parent`: all segments but the last. -/
def pathParent (p : List String) : List String := p.dropLast

/-! ## Python values -/

/-- `datetime.datetime` as produced by `strptime('%Y%m%d-%H%M%S')`. -/
structure PyDateTime where
  year : Nat
  month : Nat
  day : Nat
  hour : Nat
  minute : Nat
  second : Nat
deriving DecidableEq, Repr

/-- The dynamic values flowing through the pipeline: strings, ints,
datetimes, dates (midnight timestamps from `pd.to_datetime`), times of day,
`pathlib.Path` objects, and `None`/NaN. -/
inductive PyVal where
  | s (v : String)
  | i (v : Int)
  | dt (v : PyDateTime)
  | date (y m d : Nat)
  | time (h mi sec : Nat)
  | pypath (segs : List String)
  | missing
deriving DecidableEq, Repr

/-! ## pandas model -/

/-- A pandas DataFrame: named columns (in order), a row index whose entries
are tuples of index levels, and the names of the index levels. -/
structure DataFrame where
  cols : List (String × List PyVal)
  index : List (List PyVal)
  indexNames : List (Option String)
deriving DecidableEq, Repr

def DataFrame.colNames (df : DataFrame) : List String := df.cols.map (·.1)

def DataFrame.nrows (df : DataFrame) : Nat := df.index.length

/-- `k in df` for a DataFrame tests column membership. -/
def dfContains (df : DataFrame) (k : String) : Bool := df.colNames.contains k

/-- `df[k] = v` with a scalar broadcasts `v` down a whole column. -/
def dfSetCol (df : DataFrame) (k : String) (v : PyVal) : DataFrame :=
  ⟨dictSet df.cols k (List.replicate df.nrows v), df.index, df.indexNames⟩

/-- A per-file payload: either a DataFrame or a flat mapping (the dict /
flat-Series form the loaders return). -/
inductive Payload where
  | frame (df : DataFrame)
  | record (entries : List (String × PyVal))
deriving DecidableEq, Repr

/-- Python `k in data` on a payload. -/
def payloadContains : Payload → String → Bool
  | .frame df, k => dfContains df k
  | .record r, k => (r.map (·.1)).contains k

/-- Python `data[k] = v` on a payload. -/
def payloadSet : Payload → String → PyVal → Payload
  | .frame df, k, v => .frame (dfSetCol df k v)
  | .record r, k, v => .record (dictSet r k v)

/-! ## Error taxonomy -/

/-- Errors raised inside per-file processing (`cb`, `filenameParser`, the
merge step). -/
inductive PyErr where
  | columnCollision
  | nameError (n : String)
  | keyError (k : String)
  | typeError (msg : String)
  | valueError (msg : String)
deriving DecidableEq, Repr

/-- Errors `load` itself can surface. -/
inductive LoadError where
  | fileProcessing (path : List String) (cause : PyErr)
  | emptyResult
  | finalConcat (cause : PyErr)
deriving DecidableEq, Repr

def exceptMapError {ε ε' α : Type} (f : ε → ε') : Except ε α → Except ε' α
  | .error e => .error (f e)
  | .ok a => .ok a

/-! ## The discovery-load-merge pipeline (`dataset.py`, `load`, lines 48-103)

Files are represented by their path segment lists; the glob enumeration is
the input list `files` (in discovery order).  The caller-supplied pieces of
`load` live in `LoadCfg`. -/

structure LoadCfg where
  cb : List String → Except PyErr Payload
  filenameParser : List String → Except PyErr (List (String × PyVal))
  include_dataset : Bool
  should_load_cb : List String → Bool
  info_as_cols : Bool

/-- Lines 75-77: `'_exclude' in str(filename)` / `'.imaris_cache' in
str(filename)`. -/
def unconditionalSkip (f : List String) : Bool :=
  strContains (pathStr f) "_exclude" || strContains (pathStr f) ".imaris_cache"

/-- Lines 83-84: `if include_dataset: info['dataset'] = filename.parent`.
Note the stored value is `filename.parent`, a full Path. -/
def buildInfo (includeDataset : Bool) (info0 : List (String × PyVal))
    (f : List String) : List (String × PyVal) :=
  if includeDataset then dictSet info0 "dataset" (.pypath (pathParent f)) else info0

/-- Lines 86-90: the columns-strategy merge.  `data[k] = v` is an in-place
mutation, so the function returns the payload state reached when the loop
stops (normally or at the first collision) together with the error, if any. -/
def mergeInfoAsCols : Payload → List (String × PyVal) → Payload × Option PyErr
  | d, [] => (d, Option.none)
  | d, (k, v) :: rest =>
    if payloadContains d k then (d, some .columnCollision)
    else mergeInfoAsCols (payloadSet d k v) rest

/-- Line 92: `pd.concat([data], keys=[tuple(info.values())],
names=list(info.keys()))`.  On a DataFrame this prepends the key levels to
every row label and prefixes the level names; `pd.concat` rejects a plain
mapping with a TypeError. -/
def pdConcatKeys (d : Payload) (key : List PyVal) (names : List String) :
    Except PyErr Payload :=
  match d with
  | .frame df =>
    .ok (.frame ⟨df.cols, df.index.map (fun ix => key ++ ix),
                 names.map some ++ df.indexNames⟩)
  | .record _ => .error (.typeError "cannot concatenate object of type dict")

/-- Lines 81-92: the body of the per-file try block after the skip checks. -/
def loadStep (cfg : LoadCfg) (f : List String) : Except PyErr Payload :=
  match cfg.cb f with
  | .error e => .error e
  | .ok data =>
    match cfg.filenameParser f with
    | .error e => .error e
    | .ok info0 =>
      let info := buildInfo cfg.include_dataset info0 f
      if cfg.info_as_cols then
        match mergeInfoAsCols data info with
        | (_, some e) => .error e
        | (d2, Option.none) => .ok d2
      else
        pdConcatKeys data (info.map (·.2)) (info.map (·.1))

/-- Lines 73-96: the discovery loop.  `result` is the accumulator, `data`
the value of the loop variable `data` after the last executed iteration
(`Option.none` before any file was processed).  Any per-file failure is
re-raised as `ValueError(f'Error processing {filename}')`, modelled by
`LoadError.fileProcessing`. -/
def loadGo (cfg : LoadCfg) :
    List (List String) → List Payload → Option Payload →
      Except LoadError (List Payload × Option Payload)
  | [], result, data => .ok (result, data)
  | f :: rest, result, data =>
    if unconditionalSkip f then loadGo cfg rest result data
    else if ! cfg.should_load_cb f then loadGo cfg rest result data
    else
      match loadStep cfg f with
      | .error e => .error (.fileProcessing f e)
      | .ok d2 => loadGo cfg rest (result ++ [d2]) (some d2)

/-- Rows of `pd.concat(result)`: a column missing from one input is filled
with NaN. -/
def colValues (df : DataFrame) (c : String) : List PyVal :=
  match assocLookup df.cols c with
  | some vs => vs
  | Option.none => List.replicate df.nrows .missing

/-- Column names appearing in a list of frames, in order of first
appearance (the order `pd.concat` uses for the outer join). -/
def unionNames (nss : List (List String)) : List String :=
  nss.foldl (fun acc ns =>
    ns.foldl (fun a c => if a.contains c then a else a ++ [c]) acc) []

/-- Index level names `pd.concat` gives the result: the names of the inputs
when they agree (the runs the claims quantify over are homogeneous, so the
head's names are used). -/
def headIndexNames : List DataFrame → List (Option String)
  | [] => []
  | df :: _ => df.indexNames

/-- `pd.concat` on a list of DataFrames: row-wise union preserving arrival
order, column-wise outer join on name. -/
def pdConcatFrames (dfs : List DataFrame) : DataFrame :=
  let names := unionNames (dfs.map DataFrame.colNames)
  ⟨names.map (fun c => (c, (dfs.map (fun df => colValues df c)).flatten)),
   (dfs.map DataFrame.index).flatten,
   headIndexNames dfs⟩

/-- `pd.DataFrame(rs)` on a list of mappings: each mapping becomes one row,
columns are the union of the keys in order of first appearance, the index is
the default RangeIndex. -/
def pdDataFrameRows (rs : List (List (String × PyVal))) : DataFrame :=
  let names := unionNames (rs.map (fun r => r.map (·.1)))
  ⟨names.map (fun c => (c, rs.map (fun r => (assocLookup r c).getD .missing))),
   (List.range rs.length).map (fun i => [PyVal.i i]),
   [Option.none]⟩

/-- All payloads in DataFrame form, if they all are frames. -/
def allFrames : List Payload → Option (List DataFrame)
  | [] => some []
  | .frame df :: rest => (allFrames rest).map (df :: ·)
  | .record _ :: _ => Option.none

/-- All payloads in mapping form, if they all are mappings. -/
def allRecords : List Payload → Option (List (List (String × PyVal)))
  | [] => some []
  | .record r :: rest => (allRecords rest).map (r :: ·)
  | .frame _ :: _ => Option.none

/-- Line 100: `pd.concat(result)`.  `pd.concat` raises a TypeError when
handed a plain mapping. -/
def pdConcatList (ps : List Payload) : Except PyErr DataFrame :=
  match allFrames ps with
  | some dfs => .ok (pdConcatFrames dfs)
  | Option.none => .error (.typeError "cannot concatenate object of type dict")

/-- Line 102: `pd.DataFrame(result)`.  Modelled for lists of mappings, the
form this branch receives in every homogeneous run; a DataFrame in the list
is not a row mapping and is rejected. -/
def pdDataFrameOf (ps : List Payload) : Except PyErr DataFrame :=
  match allRecords ps with
  | some rs => .ok (pdDataFrameRows rs)
  | Option.none => .error (.typeError "DataFrame row is not a mapping")

/-- Lines 48-103: `load`. -/
def load (cfg : LoadCfg) (files : List (List String)) :
    Except LoadError DataFrame :=
  match loadGo cfg files [] Option.none with
  | .error e => .error e
  | .ok (result, data) =>
    if result.isEmpty then .error .emptyResult
    else
      match data with
      | Option.none => .error .emptyResult
      | some (.frame _) => exceptMapError .finalConcat (pdConcatList result)
      | some (.record _) => exceptMapError .finalConcat (pdDataFrameOf result)

/-! ## The filename metadata parser (`dataset.py`, lines 19-45)

`parse_psi_filename(filename, include_ear, pattern)` takes the compiled
pattern as an argument; we model the compiled pattern by its matching
function `String → Option MatchGroups` (the named groups of the regex, in
their order of appearance). -/

/-- The named groups of the pattern compiled by `get_filename_parser`:
`datetime`, `experimenter`, `animal_id`, optional `ear`, optional `note`,
`experiment_type`. -/
structure MatchGroups where
  datetime : String
  experimenter : String
  animal_id : String
  ear : Option String
  note : Option String
  experiment_type : String
deriving DecidableEq, Repr

def isLeapYear (y : Nat) : Bool :=
  y % 4 = 0 && (y % 100 ≠ 0 || y % 400 = 0)

def daysInMonth (y m : Nat) : Nat :=
  if m = 2 then (if isLeapYear y then 29 else 28)
  else if m = 4 || m = 6 || m = 9 || m = 11 then 30
  else 31

def decDigits : List Char → Option Nat
  | [] => some 0
  | c :: rest =>
    if c.isDigit then
      (decDigits rest).map (fun n => (c.toNat - 48) * 10 ^ rest.length + n)
    else Option.none

/-- `datetime.strptime(s, '%Y%m%d-%H%M%S')`: fixed-width numeric fields and
the range checks the datetime constructor enforces.  Failure raises a
ValueError in Python, modelled as `Option.none`. -/
def strptimeYmdHMS (str : String) : Option PyDateTime :=
  match str.toList with
  | [y1, y2, y3, y4, m1, m2, d1, d2, dash, h1, h2, mi1, mi2, s1, s2] =>
    if dash = '-' then
      match decDigits [y1, y2, y3, y4], decDigits [m1, m2], decDigits [d1, d2],
            decDigits [h1, h2], decDigits [mi1, mi2], decDigits [s1, s2] with
      | some y, some mo, some d, some h, some mi, some sec =>
        if 1 ≤ mo && mo ≤ 12 && 1 ≤ d && d ≤ daysInMonth y mo &&
           h ≤ 23 && mi ≤ 59 && sec ≤ 59 then
          some ⟨y, mo, d, h, mi, sec⟩
        else Option.none
      | _, _, _, _, _, _ => Option.none
    else Option.none
  | _ => Option.none

/-- An optional regex group as a dict value (`None` when unmatched). -/
def optGroup : Option String → PyVal
  | some v => .s v
  | Option.none => .missing

/-- Lines 35-45: `parse_psi_filename`.  A failed match makes
`pattern.match(...).groupdict()` raise AttributeError, which the function
turns into `ValueError(f'Could not parse {filename.stem}')`; a match that
survives the regex but fails `strptime` raises the strptime ValueError
uncaught. -/
def parse_psi_filename (stem : String) (include_ear : Bool)
    (patternMatch : String → Option MatchGroups) :
    Except PyErr (List (String × PyVal)) :=
  match patternMatch stem with
  | Option.none => .error (.valueError ("Could not parse " ++ stem))
  | some g =>
    match strptimeYmdHMS g.datetime with
    | Option.none =>
      .error (.valueError ("time data " ++ g.datetime ++
        " does not match format %Y%m%d-%H%M%S"))
    | some t =>
      let groups : List (String × PyVal) :=
        [("datetime", .dt t), ("experimenter", .s g.experimenter),
         ("animal_id", .s g.animal_id), ("ear", optGroup g.ear),
         ("note", optGroup g.note), ("experiment_type", .s g.experiment_type)]
      let groups := dictSet groups "date" (.date t.year t.month t.day)
      let groups := dictSet groups "time" (.time t.hour t.minute t.second)
      .ok (if include_ear then groups else dictDel groups "ear")

/-! ## The structured query loader (`dataset.py`, `load_raw_jmes`, lines 120-167)

Archive members are modelled by the value their text decodes to (`Json`
covers both the JSON and YAML documents queried here).  The JMESPath
fragment this loader uses is chains of identifier field accesses
(`a.b.c`); `jmespath.compile` parses them, `search` walks the decoded
value and yields `null` for a missing key or a non-object step. -/

inductive Json where
  | null
  | boolean (b : Bool)
  | num (n : Int)
  | str (s : String)
  | arr (elems : List Json)
  | obj (fields : List (String × Json))

def isIdentStart (c : Char) : Bool := c.isAlpha || c = '_'

def isIdentChar (c : Char) : Bool := c.isAlphanum || c = '_'

def isIdent (str : String) : Bool :=
  match str.toList with
  | [] => false
  | c :: rest => isIdentStart c && rest.all isIdentChar

/-- Split a character list on a separator character (Python `split('.')`). -/
def splitOnChar (sep : Char) : List Char → List (List Char)
  | [] => [[]]
  | c :: rest =>
    let r := splitOnChar sep rest
    if c = sep then [] :: r
    else
      match r with
      | [] => [[c]]
      | h :: t => (c :: h) :: t

/-- `jmespath.compile(q)` for the dotted-field queries used here: parses the
query into its field chain, failing fast on anything that is not a chain of
identifiers. -/
def jmespath_compile (q : String) : Except PyErr (List String) :=
  let fields := (splitOnChar '.' q.toList).map String.mk
  if fields.all isIdent then .ok fields
  else .error (.valueError ("Bad jmespath expression " ++ q))

/-- One JMESPath field step: object lookup, `null` on a missing key or a
non-object value. -/
def jmesField (j : Json) (f : String) : Json :=
  match j with
  | .obj fields => (assocLookup fields f).getD .null
  | _ => .null

/-- `compiled.search(doc)` for a compiled field chain. -/
def jmesSearch (path : List String) (j : Json) : Json := path.foldl jmesField j

/-- Python `s.endswith(suffix)`. -/
def strEndsWith (str suffix : String) : Bool :=
  charsPre suffix.toList.reverse str.toList.reverse

/-- Lines 144-154: resolve the file format, inferring it from the member
name's suffix when not given. -/
def inferFileFormat (filename : String) (file_format : Option String) :
    Except PyErr String :=
  match file_format with
  | Option.none =>
    if strEndsWith filename ".json" then .ok "json"
    else if strEndsWith filename ".yaml" then .ok "yaml"
    else if strEndsWith filename ".preferences" then .ok "yaml"
    else .error (.valueError ("Could not determine file format for " ++ filename))
  | some f =>
    if f = "json" || f = "yaml" then .ok f
    else .error (.valueError ("Invalid file format " ++ f))

/-- The names bound at module level in `dataset.py`: its imports (lines 1-9)
and its own definitions.  `json` is not among them — `dataset.py` never
imports the `json` module. -/
def datasetModuleNames : List String :=
  ["dt", "functools", "Path", "re", "yaml", "zipfile", "jmespath", "pd",
   "get_filename_parser", "parse_psi_filename", "load", "load_raw",
   "load_raw_jmes"]

/-- A zip archive as seen by the query loader: member name → the value that
member's text decodes to. -/
structure ZipArchive where
  members : List (String × Json)

/-- Lines 156-166: the callable `cb` built by `load_raw_jmes`.  Opening a
missing member raises KeyError.  In the json branch the expression
`json.load(fh)` first resolves the module-global name `json`; that lookup
raises NameError when `dataset.py`'s module namespace has no such binding.
The yaml branch calls the imported `yaml.full_load` and succeeds. -/
def load_raw_jmes_cb (c_query : List (String × List String)) (filename : String)
    (file_format : String) (ar : ZipArchive) : Except PyErr (List (String × Json)) :=
  match assocLookup ar.members filename with
  | Option.none => .error (.keyError filename)
  | some doc =>
    if file_format = "json" then
      if datasetModuleNames.contains "json" then
        .ok (c_query.map (fun nq => (nq.1, jmesSearch nq.2 doc)))
      else .error (.nameError "json")
    else
      .ok (c_query.map (fun nq => (nq.1, jmesSearch nq.2 doc)))

/-- Line 143: compile every query up front (fail fast on a bad query). -/
def compileQueries : List (String × String) → Except PyErr (List (String × List String))
  | [] => .ok []
  | (n, q) :: rest =>
    match jmespath_compile q with
    | .error e => .error e
    | .ok c =>
      match compileQueries rest with
      | .error e => .error e
      | .ok cs => .ok ((n, c) :: cs)

/-- `load_raw_jmes` applied to one archive: compile the queries, resolve the
format, then run the callable on the archive. -/
def load_raw_jmes_run (query : List (String × String)) (filename : String)
    (file_format : Option String) (ar : ZipArchive) :
    Except PyErr (List (String × Json)) :=
  match compileQueries query with
  | .error e => .error e
  | .ok c_query =>
    match inferFileFormat filename file_format with
    | .error e => .error e
    | .ok fmt => load_raw_jmes_cb c_query filename fmt ar

/-! ## MD5 (the semantics of `hashlib.md5`)

Byte streams are lists of `Nat` (each byte < 256); 32-bit arithmetic is done
in `Nat` with explicit reduction modulo `2 ^ 32`. -/

def m32 : Nat := 4294967296

def mask32 : Nat := 4294967295

/-- 32-bit left rotation. -/
def rotl32 (x n : Nat) : Nat := ((x <<< n) ||| (x >>> (32 - n))) % m32

/-- The `count` low-order bytes of `n`, little-endian. -/
def toLEBytes : Nat → Nat → List Nat
  | _, 0 => []
  | n, k + 1 => (n % 256) :: toLEBytes (n / 256) k

/-- MD5 padding: append 0x80, zero bytes up to 56 mod 64, then the bit
length as 8 little-endian bytes. -/
def md5pad (msg : List Nat) : List Nat :=
  let len := msg.length
  let zeros := (119 - len % 64) % 64
  msg ++ 128 :: (List.replicate zeros 0 ++ toLEBytes (len * 8) 8)

def leWord (b0 b1 b2 b3 : Nat) : Nat :=
  b0 + 256 * b1 + 65536 * b2 + 16777216 * b3

/-- Group bytes into little-endian 32-bit words. -/
def bytesToWords : List Nat → List Nat
  | b0 :: b1 :: b2 :: b3 :: rest => leWord b0 b1 b2 b3 :: bytesToWords rest
  | _ => []

/-- The 64 MD5 round constants, `floor(2^32 * abs(sin(i + 1)))`. -/
def md5K : List Nat :=
  [0xd76aa478, 0xe8c7b756, 0x242070db, 0xc1bdceee,
   0xf57c0faf, 0x4787c62a, 0xa8304613, 0xfd469501,
   0x698098d8, 0x8b44f7af, 0xffff5bb1, 0x895cd7be,
   0x6b901122, 0xfd987193, 0xa679438e, 0x49b40821,
   0xf61e2562, 0xc040b340, 0x265e5a51, 0xe9b6c7aa,
   0xd62f105d, 0x02441453, 0xd8a1e681, 0xe7d3fbc8,
   0x21e1cde6, 0xc33707d6, 0xf4d50d87, 0x455a14ed,
   0xa9e3e905, 0xfcefa3f8, 0x676f02d9, 0x8d2a4c8a,
   0xfffa3942, 0x8771f681, 0x6d9d6122, 0xfde5380c,
   0xa4beea44, 0x4bdecfa9, 0xf6bb4b60, 0xbebfbc70,
   0x289b7ec6, 0xeaa127fa, 0xd4ef3085, 0x04881d05,
   0xd9d4d039, 0xe6db99e5, 0x1fa27cf8, 0xc4ac5665,
   0xf4292244, 0x432aff97, 0xab9423a7, 0xfc93a039,
   0x655b59c3, 0x8f0ccc92, 0xffeff47d, 0x85845dd1,
   0x6fa87e4f, 0xfe2ce6e0, 0xa3014314, 0x4e0811a1,
   0xf7537e82, 0xbd3af235, 0x2ad7d2bb, 0xeb86d391]

/-- The per-round rotation amounts. -/
def md5S : List Nat :=
  [7, 12, 17, 22, 7, 12, 17, 22, 7, 12, 17, 22, 7, 12, 17, 22,
   5, 9, 14, 20, 5, 9, 14, 20, 5, 9, 14, 20, 5, 9, 14, 20,
   4, 11, 16, 23, 4, 11, 16, 23, 4, 11, 16, 23, 4, 11, 16, 23,
   6, 10, 15, 21, 6, 10, 15, 21, 6, 10, 15, 21, 6, 10, 15, 21]

/-- One of the 64 MD5 operations on the working state `(a, b, c, d)`. -/
def md5op (M : List Nat) (st : Nat × Nat × Nat × Nat) (i : Nat) :
    Nat × Nat × Nat × Nat :=
  let a := st.1
  let b := st.2.1
  let c := st.2.2.1
  let d := st.2.2.2
  let f :=
    if i < 16 then (b &&& c) ||| ((mask32 ^^^ b) &&& d)
    else if i < 32 then (d &&& b) ||| ((mask32 ^^^ d) &&& c)
    else if i < 48 then b ^^^ c ^^^ d
    else c ^^^ (b ||| (mask32 ^^^ d))
  let g :=
    if i < 16 then i
    else if i < 32 then (5 * i + 1) % 16
    else if i < 48 then (3 * i + 5) % 16
    else (7 * i) % 16
  let tmp := (a + f + md5K.getD i 0 + M.getD g 0) % m32
  ((d : Nat), (b + rotl32 tmp (md5S.getD i 0)) % m32, b, c)

/-- Process one 16-word block. -/
def md5chunk (st : Nat × Nat × Nat × Nat) (M : List Nat) :
    Nat × Nat × Nat × Nat :=
  let r := (List.range 64).foldl (md5op M) st
  ((st.1 + r.1) % m32, (st.2.1 + r.2.1) % m32,
   (st.2.2.1 + r.2.2.1) % m32, (st.2.2.2 + r.2.2.2) % m32)

/-- Process a padded byte stream 64 bytes at a time. -/
def md5blocks (st : Nat × Nat × Nat × Nat) (data : List Nat) :
    Nat × Nat × Nat × Nat :=
  if h : data.isEmpty then st
  else md5blocks (md5chunk st (bytesToWords (data.take 64))) (data.drop 64)
termination_by data.length
decreasing_by
  simp only [List.length_drop]
  have hne : data ≠ [] := by simpa using h
  have : 0 < data.length := List.length_pos.mpr hne
  omega

def hexChar (n : Nat) : Char :=
  if n < 10 then Char.ofNat (48 + n) else Char.ofNat (87 + n)

def byteHexChars (b : Nat) : List Char := [hexChar (b / 16), hexChar (b % 16)]

/-- The MD5 hex digest of a byte list (the value `hashlib.md5(data).hexdigest()`
returns). -/
def md5Hex (msg : List Nat) : String :=
  let r := md5blocks (0x67452301, 0xefcdab89, 0x98badcfe, 0x10325476) (md5pad msg)
  let bytes := toLEBytes r.1 4 ++ toLEBytes r.2.1 4 ++
               toLEBytes r.2.2.1 4 ++ toLEBytes r.2.2.2 4
  String.mk (bytes.map byteHexChars).flatten

/-! ## `postprocess.py`: `md5sum` (lines 89-111) and `validate` (lines 114-136) -/

/-- The read loop of `md5sum`: a stream is a byte list read from the front,
`stream.read(blocksize)` returns the next `blocksize` bytes, and the
`hashlib.md5` object's semantic state is the byte sequence absorbed so far
(`update` appends to it).  Returns the absorbed bytes when an empty read
breaks the loop. -/
def md5absorb (stream : List Nat) (blocksize : Nat) (absorbed : List Nat) :
    List Nat :=
  if h : (stream.take blocksize).isEmpty then absorbed
  else md5absorb (stream.drop blocksize) blocksize (absorbed ++ stream.take blocksize)
termination_by stream.length
decreasing_by
  simp only [List.length_drop]
  have h2 : ¬ (blocksize = 0 ∨ stream = []) := by
    simpa [List.take_eq_nil_iff] using h
  push_neg at h2
  have : 0 < stream.length := List.length_pos.mpr h2.2
  omega

/-- Lines 89-111: `md5sum(stream, blocksize)`. -/
def md5sum (stream : List Nat) (blocksize : Nat) : String :=
  md5Hex (md5absorb stream blocksize [])

/-- Lines 114-136: `validate(path)`.  `archive` is the member table of the
zipfile that `zipfile.ZipFile(path)` opens (member name segments → member
bytes), `fsFiles` the regular files of the filesystem, `path` the argument.
For each member the code computes `file = path / name` and compares digests
only when `file.is_file()`; the raise carries the literal string
`'{name} in zipfile for {path} is corrupted'` (no f-prefix in the source). -/
def validate (archive : List (List String × List Nat))
    (fsFiles : List (List String × List Nat)) (path : List String) :
    Except String Unit :=
  match archive with
  | [] => .ok ()
  | (name, content) :: rest =>
    let archive_md5 := md5sum content 1048576
    let file := path ++ name
    match assocLookup fsFiles file with
    | Option.none => validate rest fsFiles path
    | some fdata =>
      let file_md5 := md5sum fdata 1048576
      if archive_md5 ≠ file_md5 then
        .error "{name} in zipfile for {path} is corrupted"
      else validate rest fsFiles path

/-! ## Notions used to state the theorems -/

/-- The payload state after the columns-strategy loop has added a list of
metadata fields. -/
def payloadAddAll (d : Payload) (info : List (String × PyVal)) : Payload :=
  info.foldl (fun a kv => payloadSet a kv.1 kv.2) d

/-- The metadata fields are collision-free against the evolving payload. -/
def noCollisionPre : Payload → List (String × PyVal) → Bool
  | _, [] => true
  | d, (k, v) :: rest =>
    !payloadContains d k && noCollisionPre (payloadSet d k v) rest

/-! ## Concrete inputs used by counterexamples and witnesses -/

/-- The decoded JSON document of the spec's query example. -/
def c1doc : Json :=
  .obj [("output", .obj [("ch", .obj [("channel", .num 3)])])]

def c1query : List (String × String) := [("channel", "output.ch.channel")]

def c1ar : ZipArchive := ⟨[("io.json", c1doc)]⟩

def c1arYaml : ZipArchive := ⟨[("io.yaml", c1doc)]⟩

/-- Original bytes of the packaged member `a.txt`. -/
def c2orig : List Nat := [104, 105, 10]

/-- The unpacked copy with one corrupted byte. -/
def c2corr : List Nat := [104, 106, 10]

/-- The member table of `data.zip`. -/
def c2archive : List (List String × List Nat) := [(["a.txt"], c2orig)]

/-- The filesystem after corruption: the zipfile itself and the corrupted
unpacked member. -/
def c2fs : List (List String × List Nat) :=
  [(["data.zip"], [80, 75, 5, 6]), (["data", "a.txt"], c2corr)]

/-- A payload that already has a `date` column. -/
def c3payload : Payload :=
  .frame ⟨[("date", [PyVal.s "2023-01-01"])], [[PyVal.i 0]], [Option.none]⟩

/-- Metadata whose second field collides with the payload's `date` column. -/
def c3info : List (String × PyVal) :=
  [("datetime", .s "20230101-120000"), ("date", .s "2023-01-01")]

def c4df : DataFrame := ⟨[("level", [PyVal.i 10])], [[PyVal.i 0]], [Option.none]⟩

def c4info : List (String × PyVal) :=
  [("experimenter", .s "alice"), ("animal_id", .s "m1")]

def c4cfg : LoadCfg :=
  ⟨fun _ => .ok (.frame c4df), fun _ => .ok c4info, false, fun _ => true, false⟩

/-- A configuration whose inclusion predicate rejects every file. -/
def c5cfg : LoadCfg :=
  ⟨fun _ => .ok (.record [("level", .i 10)]), fun _ => .ok [], false,
   fun _ => false, true⟩

def c5files : List (List String) := [["data", "a.csv"], ["data", "b.csv"]]

def c7cfg : LoadCfg :=
  ⟨fun _ => .ok (.record [("level", .i 10)]),
   fun _ => .ok [("experimenter", .s "alice")], false, fun _ => true, true⟩

def c7files : List (List String) := [["d", "a.csv"]]

/-- The merged record the single `c7files` run accumulates. -/
def c7rec : Payload := .record [("level", .i 10), ("experimenter", .s "alice")]

def c8cfg : LoadCfg :=
  ⟨fun _ => .ok (.record []), fun _ => .ok [], true, fun _ => true, true⟩

def c8file : List String := ["data", "ds1", "f.csv"]

def c9cfg : LoadCfg :=
  ⟨fun _ => .ok (.record [("level", .i 10)]), fun _ => .ok [], false,
   fun _ => true, true⟩

/-- A path none of whose segments equals a reserved marker, but whose second
segment contains `_exclude` as a substring. -/
def c9file : List String := ["data", "pilot_excluded", "a.csv"]

/-! ## Helper lemmas -/

theorem assocLookup_dictSet_self {α : Type} (l : List (String × α)) (k : String)
    (v : α) : assocLookup (dictSet l k v) k = some v := by
  induction l with
  | nil => simp [dictSet, assocLookup]
  | cons kv rest ih =>
    by_cases hk : kv.1 = k
    · simp [dictSet, hk, assocLookup]
    · simp [dictSet, hk, assocLookup, ih]

theorem dictSet_append_of_fresh {α : Type} (l : List (String × α)) (k : String)
    (v : α) (h : (l.map (·.1)).contains k = false) :
    dictSet l k v = l ++ [(k, v)] := by
  induction l with
  | nil => rfl
  | cons kv rest ih =>
    simp only [List.map_cons, List.contains_cons, Bool.or_eq_false_iff] at h
    obtain ⟨h1, h2⟩ := h
    have hne : kv.1 ≠ k := by
      intro he
      rw [he] at h1
      simp at h1
    simp [dictSet, hne, ih h2]

/-! ## Claim C6 -/

/-- Claim C6: for every file base name that does not match the compiled
filename pattern, `parse_psi_filename` raises the
`ValueError('Could not parse <stem>')` naming the offending stem (the
`FilenameFormatError` of the spec) and returns no partial or default
metadata mapping. -/
theorem parse_psi_filename_no_match (stem : String) (include_ear : Bool)
    (patternMatch : String → Option MatchGroups)
    (h : patternMatch stem = Option.none) :
    parse_psi_filename stem include_ear patternMatch =
      .error (.valueError ("Could not parse " ++ stem)) := by
  unfold parse_psi_filename
  rw [h]

/-- Witness for C6 at a concrete unmatchable name. -/
theorem parse_psi_filename_no_match_witness :
    parse_psi_filename "bad file name" true (fun _ => Option.none) =
      .error (.valueError ("Could not parse " ++ "bad file name")) :=
  parse_psi_filename_no_match "bad file name" true (fun _ => Option.none) rfl

/-! ## Claim C1 -/

/-- Claim C1 (code bug): on an archive whose member `io.json` decodes to the
JSON value of the spec's example, the callable built with query mapping
`{channel: output.ch.channel}` raises `NameError` on the module-global name
`json` — `dataset.py` never imports `json` — instead of returning the
mapping `{channel: 3}`.  The compiled query itself does evaluate to 3, and
the yaml branch of the very same callable returns the expected mapping,
with `null` for a query whose path does not exist. -/
theorem load_raw_jmes_json_member_name_error :
    load_raw_jmes_run c1query "io.json" Option.none c1ar =
      .error (.nameError "json") ∧
    jmesSearch ["output", "ch", "channel"] c1doc = .num 3 ∧
    load_raw_jmes_run
      [("channel", "output.ch.channel"), ("absent", "output.nope.channel")]
      "io.yaml" Option.none c1arYaml =
      .ok [("channel", .num 3), ("absent", .null)] :=
  ⟨rfl, rfl, rfl⟩

/-! ## Claim C2 -/

/-- Claim C2 (code bug): after packaging directory `data` into `data.zip`
(member `a.txt` with bytes `c2orig`) and corrupting one byte of the
unpacked `data/a.txt` (now `c2corr`), `validate` — invoked on the zip path
as `archive_data` invokes it — raises nothing: the member path
`data.zip/a.txt` it checks is not a file, so the digest comparison is dead
and validation returns successfully despite the corruption. -/
theorem validate_silent_on_corruption :
    c2orig ≠ c2corr ∧
    assocLookup c2fs ["data", "a.txt"] = some c2corr ∧
    assocLookup c2fs (["data.zip"] ++ ["a.txt"]) = Option.none ∧
    validate c2archive c2fs ["data.zip"] = .ok () := by
  refine ⟨by decide, rfl, rfl, rfl⟩

/-! ## Claim C8 -/

/-- Claim C8 counterexample: with `include_dataset` set, loading
`data/ds1/f.csv` stores the parent directory's full path
(`Path('data/ds1')`) under the `dataset` field — a value that is neither
the folder's name `'ds1'` nor a single-segment path. -/
theorem include_dataset_full_path_cex :
    load c8cfg [c8file] =
      .ok ⟨[("dataset", [PyVal.pypath ["data", "ds1"]])], [[PyVal.i 0]],
           [Option.none]⟩ ∧
    PyVal.pypath ["data", "ds1"] ≠ PyVal.s "ds1" ∧
    PyVal.pypath ["data", "ds1"] ≠ PyVal.pypath ["ds1"] := by
  refine ⟨rfl, by decide, by decide⟩

/-- Claim C8 amended: the value injected under the `dataset` field is the
file's immediate parent directory as a path — all the path's segments but
the last — not just the parent folder's base name. -/
theorem include_dataset_value_amended (info0 : List (String × PyVal))
    (f : List String) :
    assocLookup (buildInfo true info0 f) "dataset" =
      some (.pypath (pathParent f)) ∧
    pathParent f = f.dropLast := by
  refine ⟨?_, rfl⟩
  unfold buildInfo
  simp only [if_pos]
  exact assocLookup_dictSet_self info0 "dataset" _

/-! ## Claim C4 -/

/-- Claim C4: the index-strategy merge (`info_as_cols=False`) leaves the
payload's columns (names and values) unchanged, prefixes the tuple of all
metadata values onto every row label, and prefixes the metadata field names,
in declared order, onto the index level names. -/
theorem index_strategy_merge (cfg : LoadCfg) (f : List String) (df : DataFrame)
    (info0 : List (String × PyVal))
    (hcb : cfg.cb f = .ok (.frame df))
    (hfp : cfg.filenameParser f = .ok info0)
    (hinc : cfg.include_dataset = false)
    (hcols : cfg.info_as_cols = false) :
    loadStep cfg f =
      .ok (.frame ⟨df.cols,
                   df.index.map (fun ix => info0.map (·.2) ++ ix),
                   (info0.map (·.1)).map some ++ df.indexNames⟩) := by
  unfold loadStep
  rw [hcb, hfp]
  simp [hinc, hcols, buildInfo, pdConcatKeys]

/-- Witness for C4 at a concrete one-row table and two metadata fields. -/
theorem index_strategy_merge_witness :
    loadStep c4cfg ["data", "a.csv"] =
      .ok (.frame ⟨c4df.cols,
                   c4df.index.map (fun ix => c4info.map (·.2) ++ ix),
                   (c4info.map (·.1)).map some ++ c4df.indexNames⟩) :=
  index_strategy_merge c4cfg ["data", "a.csv"] c4df c4info rfl rfl rfl rfl

/-! ## Claim C3 -/

theorem mergeInfoAsCols_stops_at_collision (pre : List (String × PyVal)) :
    ∀ (d : Payload) (k : String) (v : PyVal) (rest : List (String × PyVal)),
      noCollisionPre d pre = true →
      payloadContains (payloadAddAll d pre) k = true →
      mergeInfoAsCols d (pre ++ (k, v) :: rest) =
        (payloadAddAll d pre, some .columnCollision) := by
  induction pre with
  | nil =>
    intro d k v rest _ hk
    simp only [payloadAddAll, List.foldl_nil] at hk
    simp [mergeInfoAsCols, hk, payloadAddAll]
  | cons kv pre ih =>
    intro d k v rest hpre hk
    obtain ⟨k0, v0⟩ := kv
    simp only [noCollisionPre, Bool.and_eq_true, Bool.not_eq_eq_eq_not,
      Bool.not_true] at hpre
    obtain ⟨h1, h2⟩ := hpre
    have hstep : payloadAddAll d ((k0, v0) :: pre) =
        payloadAddAll (payloadSet d k0 v0) pre := rfl
    rw [hstep] at hk
    simp only [List.cons_append, mergeInfoAsCols, h1, Bool.false_eq_true,
      if_false]
    rw [hstep]
    exact ih (payloadSet d k0 v0) k v rest h2 hk

theorem payloadAddAll_frame_appends (pre : List (String × PyVal)) :
    ∀ df : DataFrame, noCollisionPre (.frame df) pre = true →
      payloadAddAll (.frame df) pre =
        .frame ⟨df.cols ++
                  pre.map (fun kv => (kv.1, List.replicate df.index.length kv.2)),
                df.index, df.indexNames⟩ := by
  induction pre with
  | nil => intro df _; simp [payloadAddAll]
  | cons kv pre ih =>
    intro df hpre
    obtain ⟨k0, v0⟩ := kv
    simp only [noCollisionPre, Bool.and_eq_true, Bool.not_eq_true'] at hpre
    obtain ⟨h1, h2⟩ := hpre
    have h1a : (df.cols.map (·.1)).contains k0 = false := h1
    have hset : payloadSet (.frame df) k0 v0 =
        .frame ⟨df.cols ++ [(k0, List.replicate df.index.length v0)],
                df.index, df.indexNames⟩ := by
      simp only [payloadSet, dfSetCol, DataFrame.nrows]
      rw [dictSet_append_of_fresh df.cols k0 _ h1a]
    have hstep : payloadAddAll (.frame df) ((k0, v0) :: pre) =
        payloadAddAll (payloadSet (.frame df) k0 v0) pre := rfl
    rw [hset] at h2
    rw [hstep, hset, ih _ h2]
    simp [List.append_assoc]

/-- Claim C3 amended: when a metadata field name collides with an existing
payload column, the columns-strategy merge raises the collision ValueError
and the record is not produced, and no existing column (name or values) is
overwritten — but the collision-free metadata fields that precede the first
colliding field in declared order have already been added to the payload
object when the error is raised; fields at and after the collision are not
added. -/
theorem merge_cols_collision_amended (d : Payload)
    (pre rest : List (String × PyVal)) (k : String) (v : PyVal)
    (hpre : noCollisionPre d pre = true)
    (hk : payloadContains (payloadAddAll d pre) k = true) :
    mergeInfoAsCols d (pre ++ (k, v) :: rest) =
      (payloadAddAll d pre, some .columnCollision) ∧
    (∀ df : DataFrame, d = .frame df →
      payloadAddAll d pre =
        .frame ⟨df.cols ++
                  pre.map (fun kv => (kv.1, List.replicate df.index.length kv.2)),
                df.index, df.indexNames⟩) := by
  constructor
  · exact mergeInfoAsCols_stops_at_collision pre d k v rest hpre hk
  · intro df hdf
    subst hdf
    exact payloadAddAll_frame_appends pre df hpre

/-- Claim C3 counterexample: the payload has a `date` column and the
metadata is `[datetime, date]`; the merge raises the collision error on
`date`, yet by then `datetime` has already been added to the payload — the
merge is not "performed not at all". -/
theorem merge_cols_no_merge_cex :
    (mergeInfoAsCols c3payload c3info).2 = some .columnCollision ∧
    payloadContains (mergeInfoAsCols c3payload c3info).1 "datetime" = true ∧
    (mergeInfoAsCols c3payload c3info).1 ≠ c3payload := by
  refine ⟨rfl, rfl, by decide⟩

/-- Witness for the amended C3 at the counterexample's concrete input. -/
theorem merge_cols_collision_amended_witness :
    mergeInfoAsCols c3payload c3info =
      (payloadAddAll c3payload [("datetime", .s "20230101-120000")],
       some .columnCollision) :=
  (merge_cols_collision_amended c3payload [("datetime", .s "20230101-120000")]
    [] "date" (.s "2023-01-01") (by decide) (by decide)).1

/-! ## Claim C5 -/

theorem loadGo_all_skipped (cfg : LoadCfg) :
    ∀ (files : List (List String)) (result : List Payload)
      (data : Option Payload),
      (∀ f ∈ files, unconditionalSkip f = true ∨ cfg.should_load_cb f = false) →
      loadGo cfg files result data = .ok (result, data) := by
  intro files
  induction files with
  | nil => intro result data _; rfl
  | cons f rest ih =>
    intro result data h
    have hf := h f (List.mem_cons_self f rest)
    have hrest := fun g hg => h g (List.mem_cons_of_mem f hg)
    unfold loadGo
    rcases hf with h1 | h2
    · rw [h1]
      simp only [if_true]
      exact ih result data hrest
    · cases hs : unconditionalSkip f
      · simp only [Bool.false_eq_true, if_false, h2, Bool.not_false, if_true]
        exact ih result data hrest
      · simp only [if_true]
        exact ih result data hrest

/-- Claim C5: whenever every matched path is skipped — by the reserved
markers or by the inclusion predicate — and in particular when no path
matched at all, `load` fails with the empty-result `ValueError('No data
found')` rather than returning an empty dataset. -/
theorem load_empty_result (cfg : LoadCfg) (files : List (List String))
    (h : ∀ f ∈ files, unconditionalSkip f = true ∨ cfg.should_load_cb f = false) :
    load cfg files = .error .emptyResult := by
  unfold load
  rw [loadGo_all_skipped cfg files [] Option.none h]
  rfl

/-- Witness for C5: an always-false inclusion predicate over two matched
files. -/
theorem load_empty_result_witness :
    load c5cfg c5files = .error .emptyResult :=
  load_empty_result c5cfg c5files (fun _ _ => Or.inr rfl)

/-! ## Claim C10 -/

theorem md5absorb_eq (blocksize : Nat) (hb : 0 < blocksize) :
    ∀ (stream absorbed : List Nat),
      md5absorb stream blocksize absorbed = absorbed ++ stream := by
  have main : ∀ (n : Nat) (stream : List Nat), stream.length ≤ n →
      ∀ absorbed, md5absorb stream blocksize absorbed = absorbed ++ stream := by
    intro n
    induction n with
    | zero =>
      intro stream hlen absorbed
      have hnil : stream = [] := List.length_eq_zero.mp (Nat.le_zero.mp hlen)
      subst hnil
      unfold md5absorb
      simp
    | succ n ih =>
      intro stream hlen absorbed
      by_cases hemp : (stream.take blocksize).isEmpty
      · have hnil : stream = [] := by
          rcases (List.take_eq_nil_iff).mp (by simpa using hemp) with h | h
          · omega
          · exact h
        subst hnil
        unfold md5absorb
        simp
      · unfold md5absorb
        rw [dif_neg hemp]
        have hne : stream ≠ [] := by
          intro hs
          exact hemp (by simp [hs])
        have hpos : 0 < stream.length := List.length_pos.mpr hne
        have hlt : (stream.drop blocksize).length ≤ n := by
          simp only [List.length_drop]
          omega
        rw [ih (stream.drop blocksize) hlt (absorbed ++ stream.take blocksize)]
        rw [List.append_assoc, List.take_append_drop]
  intro stream absorbed
  exact main stream.length stream (Nat.le_refl _) absorbed

/-- Claim C10: for every byte stream and every pair of positive blocksizes,
`md5sum` returns the same hexadecimal digest, and that digest is the MD5 of
the stream's full concatenated contents, independently of the blocksize
used to read the stream. -/
theorem md5sum_blocksize_indep (stream : List Nat) (b1 b2 : Nat)
    (h1 : 0 < b1) (h2 : 0 < b2) :
    md5sum stream b1 = md5sum stream b2 ∧
    md5sum stream b1 = md5Hex stream := by
  unfold md5sum
  rw [md5absorb_eq b1 h1 stream [], md5absorb_eq b2 h2 stream []]
  simp

/-- Witness for C10 at a 3-byte stream and blocksizes 1 and 2. -/
theorem md5sum_blocksize_indep_witness :
    md5sum [104, 105, 10] 1 = md5sum [104, 105, 10] 2 ∧
    md5sum [104, 105, 10] 1 = md5Hex [104, 105, 10] :=
  md5sum_blocksize_indep [104, 105, 10] 1 2 (by decide) (by decide)

/-! ## Claim C9 -/

theorem charsPre_append_sep (c : Char) (needle : List Char) (l1 l2 : List Char)
    (hc : c ∉ needle) :
    charsPre needle (l1 ++ c :: l2) = charsPre needle l1 := by
  induction l1 generalizing needle with
  | nil =>
    cases needle with
    | nil => rfl
    | cons n ns =>
      have hne : n ≠ c := fun he => hc (he ▸ List.mem_cons_self n ns)
      simp [charsPre, hne]
  | cons x xs ih =>
    cases needle with
    | nil => rfl
    | cons n ns =>
      have hns : c ∉ ns := fun hin => hc (List.mem_cons_of_mem n hin)
      simp only [List.cons_append, charsPre, List.append_eq]
      rw [ih ns hns]

theorem charsSub_append_sep (c : Char) (needle : List Char) (l1 l2 : List Char)
    (hc : c ∉ needle) :
    charsSub needle (l1 ++ c :: l2) =
      (charsSub needle l1 || charsSub needle l2) := by
  induction l1 with
  | nil =>
    cases needle with
    | nil => simp [charsSub, charsPre]
    | cons n ns =>
      have hne : n ≠ c := fun he => hc (he ▸ List.mem_cons_self n ns)
      simp [charsSub, charsPre, hne]
  | cons x xs ih =>
    simp only [List.cons_append, charsSub, List.append_eq]
    rw [show x :: (xs ++ c :: l2) = (x :: xs) ++ c :: l2 from rfl,
        charsPre_append_sep c needle (x :: xs) l2 hc]
    rw [ih]
    simp [Bool.or_assoc]

theorem charsSub_pathChars (needle : List Char) (hc : '/' ∉ needle)
    (hne : needle ≠ []) (segs : List String) :
    charsSub needle (pathChars segs) =
      segs.any (fun s => charsSub needle s.toList) := by
  induction segs with
  | nil =>
    simp [pathChars, charsSub, hne]
  | cons s rest ih =>
    cases rest with
    | nil => simp [pathChars]
    | cons s2 rest2 =>
      rw [show pathChars (s :: s2 :: rest2) =
            s.toList ++ '/' :: pathChars (s2 :: rest2) from rfl]
      rw [charsSub_append_sep '/' needle s.toList _ hc, ih]
      simp

/-- Claim C9 amended: the unconditional skip of the discovery loop fires
exactly when `_exclude` or `.imaris_cache` occurs as a substring of the
path string — equivalently, as a substring of some path segment — not only
when a whole segment equals one of the reserved markers; a path whose skip
condition holds contributes nothing to the run. -/
theorem skip_marker_substring (cfg : LoadCfg) (f : List String)
    (rest : List (List String)) (result : List Payload)
    (data : Option Payload) :
    (unconditionalSkip f =
      (strContains (pathStr f) "_exclude" ||
       strContains (pathStr f) ".imaris_cache")) ∧
    (unconditionalSkip f = true ↔
      ∃ s ∈ f, (strContains s "_exclude" || strContains s ".imaris_cache") = true) ∧
    (unconditionalSkip f = true →
      loadGo cfg (f :: rest) result data = loadGo cfg rest result data) := by
  refine ⟨rfl, ?_, ?_⟩
  · have h1 : strContains (pathStr f) "_exclude" =
        f.any (fun s => charsSub "_exclude".toList s.toList) :=
      charsSub_pathChars "_exclude".toList (by decide) (by decide) f
    have h2 : strContains (pathStr f) ".imaris_cache" =
        f.any (fun s => charsSub ".imaris_cache".toList s.toList) :=
      charsSub_pathChars ".imaris_cache".toList (by decide) (by decide) f
    unfold unconditionalSkip
    rw [h1, h2]
    simp only [Bool.or_eq_true, List.any_eq_true, strContains]
    constructor
    · rintro (⟨s, hs, hsub⟩ | ⟨s, hs, hsub⟩)
      · exact ⟨s, hs, Or.inl hsub⟩
      · exact ⟨s, hs, Or.inr hsub⟩
    · rintro ⟨s, hs, hsub | hsub⟩
      · exact Or.inl ⟨s, hs, hsub⟩
      · exact Or.inr ⟨s, hs, hsub⟩
  · intro hskip
    unfold loadGo
    rw [hskip]
    simp only [if_true]
    cases rest with
    | nil => rfl
    | cons g gs => rfl

/-- Witness for the amended C9: a path with `_exclude` inside a segment is
skipped by the loop. -/
theorem skip_marker_substring_witness :
    loadGo c9cfg [c9file] [] Option.none = loadGo c9cfg [] [] Option.none :=
  (skip_marker_substring c9cfg c9file [] [] Option.none).2.2 rfl

/-- Claim C9 counterexample: no segment of `data/pilot_excluded/a.csv`
equals a reserved marker, yet the path is skipped — being the only match,
`load` then fails with the empty-result error instead of loading it (its
loader would have succeeded). -/
theorem skip_marker_segment_cex :
    (∀ s ∈ c9file, s ≠ "_exclude" ∧ s ≠ ".imaris_cache") ∧
    unconditionalSkip c9file = true ∧
    load c9cfg [c9file] = .error .emptyResult := by
  refine ⟨by decide, rfl, rfl⟩

/-! ## Claim C7 -/

theorem loadGo_appended (cfg : LoadCfg) :
    ∀ (files : List (List String)) (res0 : List Payload) (d0 : Option Payload)
      (res : List Payload) (dfin : Option Payload),
      loadGo cfg files res0 d0 = .ok (res, dfin) →
      ∃ tail, res = res0 ++ tail ∧
        dfin = (if tail.isEmpty then d0 else tail.getLast?) := by
  intro files
  induction files with
  | nil =>
    intro res0 d0 res dfin h
    unfold loadGo at h
    simp only [Except.ok.injEq, Prod.mk.injEq] at h
    obtain ⟨h1, h2⟩ := h
    exact ⟨[], by simp [h1, h2]⟩
  | cons f rest ih =>
    intro res0 d0 res dfin h
    unfold loadGo at h
    by_cases h1 : unconditionalSkip f = true
    · rw [if_pos h1] at h
      exact ih res0 d0 res dfin h
    · rw [if_neg h1] at h
      by_cases h2 : (! cfg.should_load_cb f) = true
      · rw [if_pos h2] at h
        exact ih res0 d0 res dfin h
      · rw [if_neg h2] at h
        cases hs : loadStep cfg f with
        | error e =>
          rw [hs] at h
          simp at h
        | ok d2 =>
          rw [hs] at h
          obtain ⟨tail, ht1, ht2⟩ := ih (res0 ++ [d2]) (some d2) res dfin h
          refine ⟨d2 :: tail, ?_, ?_⟩
          · rw [ht1, List.append_assoc]
            rfl
          · cases tail with
            | nil =>
              simp only [List.isEmpty_nil, if_true] at ht2
              simp [ht2]
            | cons t ts =>
              simp only [List.isEmpty_cons, Bool.false_eq_true, if_false] at ht2
              rw [ht2]
              simp only [List.isEmpty_cons, Bool.false_eq_true, if_false]
              rw [List.getLast?_cons_cons]

theorem getLast?_some_mem {α : Type} : ∀ (l : List α) (a : α),
    l.getLast? = some a → a ∈ l := by
  intro l
  induction l with
  | nil => intro a h; cases h
  | cons x xs ih =>
    intro a h
    cases xs with
    | nil =>
      have : a = x := by simpa [List.getLast?] using h.symm
      simp [this]
    | cons y ys =>
      rw [List.getLast?_cons_cons] at h
      exact List.mem_cons_of_mem x (ih a h)

theorem allFrames_shape : ∀ (ps : List Payload) (dfs : List DataFrame),
    allFrames ps = some dfs → ∀ p ∈ ps, ∃ df, p = .frame df := by
  intro ps
  induction ps with
  | nil => intro dfs _ p hp; cases hp
  | cons p0 ps ih =>
    intro dfs h p hp
    cases p0 with
    | record r => simp [allFrames] at h
    | frame df =>
      simp only [allFrames] at h
      cases hrec : allFrames ps with
      | none => rw [hrec] at h; simp at h
      | some ds =>
        rcases List.mem_cons.mp hp with hpe | hpm
        · exact ⟨df, hpe⟩
        · exact ih ds hrec p hpm

theorem allRecords_shape : ∀ (ps : List Payload)
    (rs : List (List (String × PyVal))),
    allRecords ps = some rs → ∀ p ∈ ps, ∃ r, p = .record r := by
  intro ps
  induction ps with
  | nil => intro rs _ p hp; cases hp
  | cons p0 ps ih =>
    intro rs h p hp
    cases p0 with
    | frame df => simp [allRecords] at h
    | record r0 =>
      simp only [allRecords] at h
      cases hrec : allRecords ps with
      | none => rw [hrec] at h; simp at h
      | some ds =>
        rcases List.mem_cons.mp hp with hpe | hpm
        · exact ⟨r0, hpe⟩
        · exact ih ds hrec p hpm

theorem pdConcatList_of_allFrames (ps : List Payload) (dfs : List DataFrame)
    (h : allFrames ps = some dfs) :
    pdConcatList ps = .ok (pdConcatFrames dfs) := by
  unfold pdConcatList
  rw [h]

theorem pdDataFrameOf_of_allRecords (ps : List Payload)
    (rs : List (List (String × PyVal))) (h : allRecords ps = some rs) :
    pdDataFrameOf ps = .ok (pdDataFrameRows rs) := by
  unfold pdDataFrameOf
  rw [h]

/-- Claim C7: in every run of `load` that accumulates at least one record,
the final concatenation strategy is decided solely by the shape of the
last-produced payload (the loop variable `data`, which is the last
accumulated record): a table-shaped last payload routes the whole
accumulator through `pd.concat` — row-wise concatenation preserving arrival
order — and a mapping-shaped last payload routes it through
`pd.DataFrame`, one row per accumulated mapping. -/
theorem load_concat_by_last_shape (cfg : LoadCfg) (files : List (List String))
    (result : List Payload) (d : Payload)
    (h : loadGo cfg files [] Option.none = .ok (result, some d)) :
    result.getLast? = some d ∧
    (∀ df : DataFrame, d = .frame df →
      load cfg files = exceptMapError .finalConcat (pdConcatList result)) ∧
    (∀ r, d = .record r →
      load cfg files = exceptMapError .finalConcat (pdDataFrameOf result)) ∧
    (∀ dfs, allFrames result = some dfs →
      load cfg files = .ok (pdConcatFrames dfs) ∧
      (pdConcatFrames dfs).index = (dfs.map DataFrame.index).flatten) ∧
    (∀ rs, allRecords result = some rs →
      load cfg files = .ok (pdDataFrameRows rs)) := by
  obtain ⟨tail, ht1, ht2⟩ :=
    loadGo_appended cfg files [] Option.none result (some d) h
  have htne : tail.isEmpty = false := by
    cases he : tail.isEmpty
    · rfl
    · rw [he] at ht2
      simp at ht2
  have hres : result = tail := by simpa using ht1
  rw [htne] at ht2
  simp only [Bool.false_eq_true, if_false] at ht2
  have hlast : result.getLast? = some d := by rw [hres]; exact ht2.symm
  have hnotempty : result.isEmpty = false := by rw [hres]; exact htne
  have hload : load cfg files =
      (match some d with
       | Option.none => Except.error LoadError.emptyResult
       | some (.frame _) => exceptMapError .finalConcat (pdConcatList result)
       | some (.record _) => exceptMapError .finalConcat (pdDataFrameOf result)) := by
    unfold load
    rw [h]
    simp only [hnotempty, Bool.false_eq_true, if_false]
  refine ⟨hlast, ?_, ?_, ?_, ?_⟩
  · intro df hdf
    subst hdf
    rw [hload]
  · intro r hr
    subst hr
    rw [hload]
  · intro dfs hdfs
    obtain ⟨df, hdf⟩ :=
      allFrames_shape result dfs hdfs d (getLast?_some_mem result d hlast)
    subst hdf
    refine ⟨?_, rfl⟩
    rw [hload, pdConcatList_of_allFrames result dfs hdfs]
    rfl
  · intro rs hrs
    obtain ⟨r, hr⟩ :=
      allRecords_shape result rs hrs d (getLast?_some_mem result d hlast)
    subst hr
    rw [hload, pdDataFrameOf_of_allRecords result rs hrs]
    rfl

/-- Witness for C7: a one-file run accumulating one mapping-shaped record;
the loop variable is that record. -/
theorem load_concat_by_last_shape_witness :
    List.getLast? [c7rec] = some c7rec :=
  (load_concat_by_last_shape c7cfg c7files [c7rec] c7rec rfl).1

end Psidata
